import Mathlib

/-
  Shallow embedding of src/projekt/generator/main.py.

  The script queries a registry (GET http://127.0.0.1:7878/project) for a
  list of project descriptors and iterates over the list.  The else of
  the source is attached to the if inside the loop, so each iteration
  either (name match) prints the resolved sequence URL, fetches
  GET <url>/sequence, issues two POSTs to <url>/Arithmetc and three POSTs
  to <url>/Smoothed printing each response, then breaks; or (name
  mismatch) prints "Lucija & Lev not found" and calls exit(1) twice.

  The program is modelled as a function from its environment (the decoded
  registry response, the decoded catalog response, and a map from POST
  requests to decoded responses) to the list of observable events (HTTP
  requests issued, lines printed, process exit).  The redundant second
  exit(1) of the source is kept in a small statement-list embedding of the
  else branch, interpreted by an executor that stops at the first exit.
-/

namespace Gen

/-- JSON values: numbers are decimals m / 10 ^ e (the script only ever
builds integer literals and the float literal 0.9, both of which Python's
json module prints canonically). -/
inductive Json where
  | str (s : String)
  | num (m : Int) (e : Nat)
  | arr (xs : List Json)
  | obj (fields : List (String × Json))

/-- A project descriptor as decoded from the registry response
(spec: an object with name, ip and port). -/
structure Project where
  name : String
  ip : String
  port : Int
deriving DecidableEq

/-- Observable events of an execution. -/
inductive Event where
  | get (url : String)
  | post (url : String) (body : Json)
  | print (s : String)
  | printJson (j : Json)
  | exited (code : Nat)

/-- Statements of the else branch, embedded deeply so that the double
exit(1) of the source stays visible. -/
inductive Stmt where
  | print (s : String)
  | exit (code : Nat)
deriving DecidableEq

/-- Control outcome of one loop iteration. -/
inductive Ctl where
  | normal
  | brk
  | exited

/-- Executing a statement list: execution stops at the first exit. -/
def execStmts : List Stmt → List Event × Ctl
  | [] => ([], Ctl.normal)
  | Stmt.print s :: rest =>
      let r := execStmts rest
      (Event.print s :: r.1, r.2)
  | Stmt.exit c :: _ => ([Event.exited c], Ctl.exited)

def registryUrl : String := "http://127.0.0.1:7878/project"

def targetName : String := "Lucija & Lev"

def notFoundMsg : String := "Lucija & Lev not found"

/-- url = "http://" + j["ip"] + ":" + str(j["port"]) + "/sequence" -/
def seqUrl (p : Project) : String :=
  "http://" ++ p.ip ++ ":" ++ toString p.port ++ "/sequence"

/-- The body built in the first loop (for j in range(2)), with z = 1 and
k = 0.9: range from j*100 to (j+1)*100 step 1, parameters [z, k],
sequences []. -/
def arithBody (j : Nat) : Json :=
  Json.obj
    [("range", Json.obj
        [("from", Json.num ((j : Int) * 100) 0),
         ("to", Json.num (((j : Int) + 1) * 100) 0),
         ("step", Json.num 1 0)]),
     ("parameters", Json.arr [Json.num 1 0, Json.num 9 1]),
     ("sequences", Json.arr [])]

/-- The nested entry of the Smoothed bodies:
{"name": "Arithmetic", "parameters": [z, k], "sequences": []}. -/
def nestedArith : Json :=
  Json.obj
    [("name", Json.str "Arithmetic"),
     ("parameters", Json.arr [Json.num 1 0, Json.num 9 1]),
     ("sequences", Json.arr [])]

/-- The body built in the second loop (for i in range(3)): range as above,
parameters [], sequences [nestedArith]. -/
def smoothBody (i : Nat) : Json :=
  Json.obj
    [("range", Json.obj
        [("from", Json.num ((i : Int) * 100) 0),
         ("to", Json.num (((i : Int) + 1) * 100) 0),
         ("step", Json.num 1 0)]),
     ("parameters", Json.arr []),
     ("sequences", Json.arr [nestedArith])]

/-- Events of the matching branch: print(url); seqs = GET url (response
bound but never read); two POSTs to url + "/Arithmetc"; three POSTs to
url + "/Smoothed"; each response printed. -/
def successEvents (p : Project) (_catalog : Json)
    (resp : String → Json → Json) : List Event :=
  let url := seqUrl p
  [Event.print url, Event.get url]
    ++ (List.range 2).flatMap (fun j =>
        [Event.post (url ++ "/Arithmetc") (arithBody j),
         Event.printJson (resp (url ++ "/Arithmetc") (arithBody j))])
    ++ (List.range 3).flatMap (fun i =>
        [Event.post (url ++ "/Smoothed") (smoothBody i),
         Event.printJson (resp (url ++ "/Smoothed") (smoothBody i))])

/-- The else branch of the source: print the message, then exit(1) twice. -/
def elseBranch : List Stmt :=
  [Stmt.print notFoundMsg, Stmt.exit 1, Stmt.exit 1]

/-- One iteration of the for loop over the registry response: the if
branch ends in break, the else branch is the deeply embedded statement
list. -/
def loopIter (catalog : Json) (resp : String → Json → Json)
    (p : Project) : List Event × Ctl :=
  if p.name = targetName then (successEvents p catalog resp, Ctl.brk)
  else execStmts elseBranch

/-- The for loop: iterate until break or exit ends the loop. -/
def projectLoop (catalog : Json) (resp : String → Json → Json) :
    List Project → List Event
  | [] => []
  | p :: rest =>
      match loopIter catalog resp p with
      | (es, Ctl.normal) => es ++ projectLoop catalog resp rest
      | (es, Ctl.brk) => es
      | (es, Ctl.exited) => es

/-- The whole script: the registry GET, then the loop over the decoded
project list; nothing follows the loop. -/
def run (projects : List Project) (catalog : Json)
    (resp : String → Json → Json) : List Event :=
  Event.get registryUrl :: projectLoop catalog resp projects

/-- Exit status of a trace: the code of the first exit event, 0 when the
script falls off the end. -/
def exitStatus (tr : List Event) : Nat :=
  match tr.filterMap (fun e => match e with
      | Event.exited c => some c
      | _ => none) with
  | [] => 0
  | c :: _ => c

/-- Whether the last `suffix.length` characters of s spell suffix. -/
def strEndsWith (s suffix : String) : Bool :=
  suffix.data == s.data.drop (s.data.length - suffix.data.length)

def isPostE : Event → Bool
  | Event.post _ _ => true
  | _ => false

def isGetOn (u : String) : Event → Bool
  | Event.get v => v == u
  | _ => false

/-- A GET whose url ends in "/sequence". -/
def isSeqGetE : Event → Bool
  | Event.get u => strEndsWith u "/sequence"
  | _ => false

def isPrintE : Event → Bool
  | Event.print _ => true
  | Event.printJson _ => true
  | _ => false

def isPrintOf (s : String) : Event → Bool
  | Event.print t => t == s
  | _ => false

def isExitE : Event → Bool
  | Event.exited _ => true
  | _ => false

/-- The urls of the GET events of a trace, in order. -/
def getUrls (tr : List Event) : List String :=
  tr.filterMap (fun e => match e with
    | Event.get u => some u
    | _ => none)

/-- The url/body pairs of the POST events of a trace, in order. -/
def posts (tr : List Event) : List (String × Json) :=
  tr.filterMap (fun e => match e with
    | Event.post u b => some (u, b)
    | _ => none)

/-- The urls of the POST events of a trace, in order. -/
def postUrls (tr : List Event) : List String :=
  tr.filterMap (fun e => match e with
    | Event.post u _ => some u
    | _ => none)

/-- Field lookup on a JSON object. -/
def lookupF (j : Json) (k : String) : Option Json :=
  match j with
  | Json.obj fs => List.lookup k fs
  | _ => none

def isNumJ : Json → Bool
  | Json.num _ _ => true
  | _ => false

def isNumO : Option Json → Bool
  | some (Json.num _ _) => true
  | _ => false

/-- The shape of the claim's words, followed literally (a refinement
check against the source bodies): an object whose range field is an
object with numeric from/to/step, whose parameters field is an array of
numbers, and whose sequences field is an array of bodies of this same
shape again.  Fuel bounds the recursion depth; the bodies in question
have depth below any positive fuel used here. -/
def specSameShaped : Nat → Json → Bool
  | 0, _ => false
  | fuel+1, j =>
    match lookupF j "range", lookupF j "parameters", lookupF j "sequences" with
    | some (Json.obj rf), some (Json.arr ps), some (Json.arr ss) =>
        isNumO (List.lookup "from" rf) && isNumO (List.lookup "to" rf)
          && isNumO (List.lookup "step" rf) && ps.all isNumJ
          && ss.all (specSameShaped fuel)
    | _, _, _ => false

/-- The shape the source actually builds for a nested sequences entry: an
object with a string name, numeric parameters and an empty sequences
array (no range field). -/
def nestedEntryShaped (j : Json) : Bool :=
  match lookupF j "name", lookupF j "parameters", lookupF j "sequences" with
  | some (Json.str _), some (Json.arr ps), some (Json.arr ss) =>
      ps.all isNumJ && ss.isEmpty
  | _, _, _ => false

/-- The shape the source actually builds for a top-level body: numeric
from/to/step range, numeric parameters, and sequences entries of the
nested shape above; nesting depth is thus at most one. -/
def bodyShaped (j : Json) : Bool :=
  match lookupF j "range", lookupF j "parameters", lookupF j "sequences" with
  | some (Json.obj rf), some (Json.arr ps), some (Json.arr ss) =>
      isNumO (List.lookup "from" rf) && isNumO (List.lookup "to" rf)
        && isNumO (List.lookup "step" rf) && ps.all isNumJ
        && ss.all nestedEntryShaped
  | _, _, _ => false

/-- The range field of a body as an (from, to, step) triple of integers. -/
def rangeOf (j : Json) : Option (Int × Int × Int) :=
  match lookupF j "range" with
  | some (Json.obj rf) =>
    match List.lookup "from" rf, List.lookup "to" rf, List.lookup "step" rf with
    | some (Json.num a 0), some (Json.num b 0), some (Json.num c 0) => some (a, b, c)
    | _, _, _ => none
  | _ => none

/- JSON text encoding and decoding, for the round-trip claim.  The
encoder prints values the way Python's json module does (compact
separators); the decoder is a recursive-descent parser over the character
list, with a fuel parameter bounding the recursion. -/

def quoteC : Char := Char.ofNat 34

def openB : Char := Char.ofNat 123

def closeB : Char := Char.ofNat 125

/-- Decimal rendering of m / 10 ^ e; integers print without a point. -/
def encNum (m : Int) (e : Nat) : String :=
  if e = 0 then toString m
  else
    let digits := (toString m.natAbs).data
    let padded :=
      if digits.length ≤ e then List.replicate (e + 1 - digits.length) '0' ++ digits
      else digits
    let k := padded.length - e
    (if m < 0 then "-" else "") ++ String.mk (padded.take k) ++ "." ++ String.mk (padded.drop k)

/-- JSON text of a value; the fuel bounds the tree depth (the bodies the
script builds have depth 4). -/
def encodeF : Nat → Json → String
  | 0, _ => ""
  | fuel+1, j =>
    match j with
    | Json.str s => String.mk [quoteC] ++ s ++ String.mk [quoteC]
    | Json.num m e => encNum m e
    | Json.arr xs => "[" ++ String.intercalate "," (xs.map (encodeF fuel)) ++ "]"
    | Json.obj fs =>
        String.mk [openB]
          ++ String.intercalate "," (fs.map (fun kv =>
               String.mk [quoteC] ++ kv.1 ++ String.mk [quoteC] ++ ":" ++ encodeF fuel kv.2))
          ++ String.mk [closeB]

def encode (j : Json) : String := encodeF 100 j

def natFromDigits (ds : List Char) : Nat :=
  ds.foldl (fun a c => a * 10 + (c.toNat - 48)) 0

/-- Read a string body up to the closing quote (the script's strings
contain no escapes). -/
def pString (cs : List Char) : Option (String × List Char) :=
  let pre := cs.takeWhile (fun c => c ≠ quoteC)
  match cs.dropWhile (fun c => c ≠ quoteC) with
  | _ :: r => some (String.mk pre, r)
  | [] => none

/-- Read a number: optional sign, digits, optional point and digits. -/
def pNum (cs : List Char) : Option (Json × List Char) :=
  let sn := match cs with
    | c :: r => if c = '-' then (true, r) else (false, cs)
    | [] => (false, cs)
  let ds := sn.2.takeWhile Char.isDigit
  let r1 := sn.2.dropWhile Char.isDigit
  if ds.isEmpty then none
  else
    let mkInt : Nat → Int := fun n => if sn.1 then -(Int.ofNat n) else Int.ofNat n
    match r1 with
    | c :: r2 =>
      if c = '.' then
        let fs := r2.takeWhile Char.isDigit
        let r3 := r2.dropWhile Char.isDigit
        if fs.isEmpty then none
        else some (Json.num (mkInt (natFromDigits (ds ++ fs))) fs.length, r3)
      else some (Json.num (mkInt (natFromDigits ds)) 0, r1)
    | [] => some (Json.num (mkInt (natFromDigits ds)) 0, [])

/-- Parser mode: a single value, the items of an array after its opening
bracket, or the fields of an object after its opening brace. -/
inductive PMode where
  | one
  | arrItems
  | objFields

/-- Recursive-descent JSON parser; the fuel decreases on every nested
call. -/
def parse : Nat → PMode → List Char → Option (Json × List Char)
  | 0, _, _ => none
  | fuel+1, PMode.one, cs =>
    match cs with
    | [] => none
    | c :: rest =>
      if c = quoteC then
        match pString rest with
        | some (s, r) => some (Json.str s, r)
        | none => none
      else if c = '[' then
        match rest with
        | d :: r2 => if d = ']' then some (Json.arr [], r2) else parse fuel PMode.arrItems rest
        | [] => none
      else if c = openB then
        match rest with
        | d :: r2 => if d = closeB then some (Json.obj [], r2) else parse fuel PMode.objFields rest
        | [] => none
      else pNum cs
  | fuel+1, PMode.arrItems, cs =>
    match parse fuel PMode.one cs with
    | some (j, rest) =>
      match rest with
      | c :: r2 =>
        if c = ',' then
          match parse fuel PMode.arrItems r2 with
          | some (Json.arr xs, r3) => some (Json.arr (j :: xs), r3)
          | _ => none
        else if c = ']' then some (Json.arr [j], r2)
        else none
      | [] => none
    | none => none
  | fuel+1, PMode.objFields, cs =>
    match cs with
    | c :: rest =>
      if c = quoteC then
        match pString rest with
        | some (k, r1) =>
          match r1 with
          | d :: r2 =>
            if d = ':' then
              match parse fuel PMode.one r2 with
              | some (v, r3) =>
                match r3 with
                | b :: r4 =>
                  if b = ',' then
                    match parse fuel PMode.objFields r4 with
                    | some (Json.obj fs, r5) => some (Json.obj ((k, v) :: fs), r5)
                    | _ => none
                  else if b = closeB then some (Json.obj [(k, v)], r4)
                  else none
                | [] => none
              | none => none
            else none
          | [] => none
        | none => none
      else none
    | [] => none

/-- Decode a JSON text, requiring that all input is consumed. -/
def decode (s : String) : Option Json :=
  match parse (s.length + 1) PMode.one s.data with
  | some (j, []) => some j
  | _ => none

/-- All the request bodies the script constructs, in order. -/
def constructedBodies : List Json :=
  (List.range 2).map arithBody ++ (List.range 3).map smoothBody

/- Concrete inputs used in witnesses and counterexamples. -/

def cat0 : Json := Json.arr []

def resp0 : String → Json → Json := fun _ _ => Json.arr []

/-- A registry entry carrying the target name. -/
def projM : Project := ⟨"Lucija & Lev", "1.2.3.4", 8080⟩

/-- A registry entry carrying some other name. -/
def projX : Project := ⟨"Other", "0.0.0.0", 1⟩

/-- A registry response whose second (not first) entry is the target. -/
def cexProjects : List Project := [projX, projM]

/- Helper lemmas about the trace. -/

/-- The matching branch produces this explicit event list. -/
theorem successEvents_eq (p : Project) (cat : Json)
    (resp : String → Json → Json) :
    successEvents p cat resp =
      [Event.print (seqUrl p), Event.get (seqUrl p),
       Event.post (seqUrl p ++ "/Arithmetc") (arithBody 0),
       Event.printJson (resp (seqUrl p ++ "/Arithmetc") (arithBody 0)),
       Event.post (seqUrl p ++ "/Arithmetc") (arithBody 1),
       Event.printJson (resp (seqUrl p ++ "/Arithmetc") (arithBody 1)),
       Event.post (seqUrl p ++ "/Smoothed") (smoothBody 0),
       Event.printJson (resp (seqUrl p ++ "/Smoothed") (smoothBody 0)),
       Event.post (seqUrl p ++ "/Smoothed") (smoothBody 1),
       Event.printJson (resp (seqUrl p ++ "/Smoothed") (smoothBody 1)),
       Event.post (seqUrl p ++ "/Smoothed") (smoothBody 2),
       Event.printJson (resp (seqUrl p ++ "/Smoothed") (smoothBody 2))] := rfl

theorem run_nil (cat : Json) (resp : String → Json → Json) :
    run [] cat resp = [Event.get registryUrl] := rfl

theorem run_match (p : Project) (rest : List Project) (cat : Json)
    (resp : String → Json → Json) (h : p.name = targetName) :
    run (p :: rest) cat resp = Event.get registryUrl :: successEvents p cat resp := by
  simp [run, projectLoop, loopIter, h]

theorem run_nomatch (p : Project) (rest : List Project) (cat : Json)
    (resp : String → Json → Json) (h : ¬ p.name = targetName) :
    run (p :: rest) cat resp
      = [Event.get registryUrl, Event.print notFoundMsg, Event.exited 1] := by
  simp [run, projectLoop, loopIter, h, elseBranch, execStmts]

/-- The resolved sequence url never equals the registry url (it ends in
"/sequence", the registry url in "/project"). -/
theorem seqUrl_ne_registryUrl (p : Project) : seqUrl p ≠ registryUrl := by
  intro h
  have hd : ("http://" ++ p.ip ++ ":" ++ toString p.port).data ++ "/sequence".data
      = registryUrl.data := by
    rw [← String.data_append]
    exact congrArg String.data h
  have hlen : ("http://" ++ p.ip ++ ":" ++ toString p.port).data.length = 20 := by
    have h2 := congrArg List.length hd
    rw [List.length_append] at h2
    have e1 : "/sequence".data.length = 9 := rfl
    have e2 : registryUrl.data.length = 29 := rfl
    rw [e1, e2] at h2
    omega
  have hdrop : registryUrl.data.drop 20 = "/sequence".data := by
    rw [← hd, ← hlen]
    exact List.drop_left _ _
  exact absurd hdrop (by decide)

/-- Appending distinct suffixes to one string gives distinct strings. -/
theorem append_ne_of_ne (a : String) {b c : String} (h : b.data ≠ c.data) :
    a ++ b ≠ a ++ c := by
  intro he
  apply h
  have hd := congrArg String.data he
  rw [String.data_append, String.data_append] at hd
  exact List.append_cancel_left hd

theorem arith_ne_smooth (s : String) : s ++ "/Arithmetc" ≠ s ++ "/Smoothed" :=
  append_ne_of_ne s (by decide)

theorem strEndsWith_append (a b : String) : strEndsWith (a ++ b) b = true := by
  unfold strEndsWith
  rw [String.data_append, List.length_append, Nat.add_sub_cancel, List.drop_left]
  exact beq_self_eq_true _

theorem seqUrl_endsWith (p : Project) : strEndsWith (seqUrl p) "/sequence" = true :=
  strEndsWith_append ("http://" ++ p.ip ++ ":" ++ toString p.port) "/sequence"

theorem registryUrl_not_seq : strEndsWith registryUrl "/sequence" = false := by
  decide

/-- The resolved sequence url starts with the letter h. -/
theorem seqUrl_head (p : Project) : (seqUrl p).data.head? = some 'h' := by
  simp [seqUrl, String.data_append]

/-- The resolved sequence url never equals the not-found message. -/
theorem seqUrl_ne_notFoundMsg (p : Project) : seqUrl p ≠ notFoundMsg := by
  intro h
  have h1 := seqUrl_head p
  rw [h] at h1
  exact absurd h1 (by decide)

/- Claim theorems. -/

/-- Claim C1, counterexample: a registry response whose second entry is
the target.  The list contains the target name, yet the run issues no
GET ending in "/sequence" and no POST at all; it exits with status 1
(the source's else belongs to the if, so only the first entry is ever
examined). -/
theorem c1_counterexample :
    (cexProjects.map Project.name).contains targetName = true
      ∧ (run cexProjects cat0 resp0).countP isSeqGetE = 0
      ∧ (run cexProjects cat0 resp0).countP isPostE = 0
      ∧ exitStatus (run cexProjects cat0 resp0) = 1 := by
  decide

/-- Claim C1, amended: when the first registry entry's name equals the
target, the run issues exactly one GET to the resolved address followed
by "/sequence", that GET happens before every POST, and POSTs do occur. -/
theorem c1_target_first (p : Project) (rest : List Project) (cat : Json)
    (resp : String → Json → Json) (h : p.name = targetName) :
    ((run (p :: rest) cat resp).countP (isGetOn (seqUrl p)) = 1)
      ∧ (((run (p :: rest) cat resp).takeWhile (fun e => !(isPostE e))).countP
            (isGetOn (seqUrl p)) = 1)
      ∧ 0 < (run (p :: rest) cat resp).countP isPostE := by
  have hre : (registryUrl == seqUrl p) = false :=
    beq_eq_false_iff_ne.mpr (fun he => seqUrl_ne_registryUrl p he.symm)
  rw [run_match p rest cat resp h, successEvents_eq]
  refine ⟨?_, ?_, ?_⟩
  · simp [List.countP_cons, isGetOn, hre]
  · simp [List.takeWhile, isPostE, List.countP_cons, isGetOn, hre]
  · simp [List.countP_cons, isPostE]

/-- Witness for C1's amended theorem at a concrete matching project. -/
theorem c1_witness :
    ((run [projM] cat0 resp0).countP (isGetOn (seqUrl projM)) = 1)
      ∧ (((run [projM] cat0 resp0).takeWhile (fun e => !(isPostE e))).countP
            (isGetOn (seqUrl projM)) = 1)
      ∧ 0 < (run [projM] cat0 resp0).countP isPostE :=
  c1_target_first projM [] cat0 resp0 rfl

/-- Claim C2, counterexample: the empty registry response contains no
entry named after the target, yet the run prints nothing, performs no
exit and terminates with status 0 (the loop body never executes). -/
theorem c2_counterexample :
    (∀ q ∈ ([] : List Project), q.name ≠ targetName)
      ∧ exitStatus (run [] cat0 resp0) = 0
      ∧ (run [] cat0 resp0).countP (isPrintOf notFoundMsg) = 0
      ∧ (run [] cat0 resp0).countP isExitE = 0 := by
  refine ⟨?_, rfl, rfl, rfl⟩
  intro q hq
  exact absurd hq (List.not_mem_nil q)

/-- Claim C2, amended: for every non-empty registry response containing
no entry named after the target, the run is exactly the registry GET, the
diagnostic print and a single exit with status 1; no GET ending in
"/sequence" and no POST is issued. -/
theorem c2_not_found (ps : List Project) (cat : Json)
    (resp : String → Json → Json) (hne : ps ≠ [])
    (hall : ∀ q ∈ ps, q.name ≠ targetName) :
    run ps cat resp = [Event.get registryUrl, Event.print notFoundMsg, Event.exited 1]
      ∧ exitStatus (run ps cat resp) = 1
      ∧ (run ps cat resp).countP isSeqGetE = 0
      ∧ (run ps cat resp).countP isPostE = 0 := by
  cases ps with
  | nil => exact absurd rfl hne
  | cons p rest =>
    have h : ¬ p.name = targetName := hall p (List.mem_cons_self p rest)
    rw [run_nomatch p rest cat resp h]
    exact ⟨rfl, rfl, by decide, by decide⟩

/-- Witness for C2's amended theorem at a concrete non-matching entry. -/
theorem c2_witness :
    run [projX] cat0 resp0
        = [Event.get registryUrl, Event.print notFoundMsg, Event.exited 1]
      ∧ exitStatus (run [projX] cat0 resp0) = 1
      ∧ (run [projX] cat0 resp0).countP isSeqGetE = 0
      ∧ (run [projX] cat0 resp0).countP isPostE = 0 :=
  c2_not_found [projX] cat0 resp0 (by decide) (by decide)

/-- Claim C3: on the empty registry response the run is only the registry
GET (no further HTTP request), prints nothing, and exits with status 0;
moreover the not-found print and the exit are reachable only when the
list holds an entry whose name differs from the target. -/
theorem c3_empty_registry (cat : Json) (resp : String → Json → Json)
    (ps : List Project) :
    (run [] cat resp = [Event.get registryUrl]
        ∧ exitStatus (run [] cat resp) = 0
        ∧ (run [] cat resp).countP isPrintE = 0
        ∧ (run [] cat resp).countP isPostE = 0
        ∧ getUrls (run [] cat resp) = [registryUrl])
      ∧ (1 ≤ (run ps cat resp).countP (isPrintOf notFoundMsg)
            ∨ 1 ≤ (run ps cat resp).countP isExitE →
          ∃ q ∈ ps, q.name ≠ targetName) := by
  refine ⟨⟨rfl, rfl, rfl, rfl, rfl⟩, ?_⟩
  intro hcount
  cases ps with
  | nil =>
    exfalso
    rcases hcount with hc | hc <;>
      · rw [run_nil] at hc
        exact absurd hc (by decide)
  | cons p rest =>
    by_cases hp : p.name = targetName
    · exfalso
      rw [run_match p rest cat resp hp, successEvents_eq] at hcount
      have hb : (seqUrl p == notFoundMsg) = false :=
        beq_eq_false_iff_ne.mpr (seqUrl_ne_notFoundMsg p)
      rcases hcount with hc | hc
      · simp [List.countP_cons, isPrintOf, hb] at hc
      · simp [List.countP_cons, isExitE] at hc
    · exact ⟨p, List.mem_cons_self p rest, hp⟩

/-- Witness for C3's reachability implication at a concrete input. -/
theorem c3_witness : ∃ q ∈ [projX], q.name ≠ targetName :=
  (c3_empty_registry cat0 resp0 [projX]).2 (Or.inl (by decide))

/-- Claim C4, counterexample: on a registry response resolving the
target, the run issues three POSTs to the Smoothed endpoint, not two, and
none at all to a url spelled "/Arithmetic" (the source spells it
"/Arithmetc"). -/
theorem c4_counterexample :
    projM.name = targetName
      ∧ (postUrls (run [projM] cat0 resp0)).count
          "http://1.2.3.4:8080/sequence/Smoothed" = 3
      ∧ (postUrls (run [projM] cat0 resp0)).count
          "http://1.2.3.4:8080/sequence/Arithmetic" = 0 := by
  decide

/-- Claim C4, amended: on the success path the POST events are exactly
two to the "/Arithmetc" endpoint followed by three to the "/Smoothed"
endpoint, in loop order, each carrying its loop body. -/
theorem c4_post_counts (p : Project) (rest : List Project) (cat : Json)
    (resp : String → Json → Json) (h : p.name = targetName) :
    posts (run (p :: rest) cat resp)
        = [(seqUrl p ++ "/Arithmetc", arithBody 0),
           (seqUrl p ++ "/Arithmetc", arithBody 1),
           (seqUrl p ++ "/Smoothed", smoothBody 0),
           (seqUrl p ++ "/Smoothed", smoothBody 1),
           (seqUrl p ++ "/Smoothed", smoothBody 2)]
      ∧ (postUrls (run (p :: rest) cat resp)).count (seqUrl p ++ "/Arithmetc") = 2
      ∧ (postUrls (run (p :: rest) cat resp)).count (seqUrl p ++ "/Smoothed") = 3 := by
  rw [run_match p rest cat resp h, successEvents_eq]
  have hsa : ((seqUrl p ++ "/Smoothed") == (seqUrl p ++ "/Arithmetc")) = false :=
    beq_eq_false_iff_ne.mpr (fun he => arith_ne_smooth (seqUrl p) he.symm)
  have has : ((seqUrl p ++ "/Arithmetc") == (seqUrl p ++ "/Smoothed")) = false :=
    beq_eq_false_iff_ne.mpr (arith_ne_smooth (seqUrl p))
  refine ⟨rfl, ?_, ?_⟩
  · simp [postUrls, List.count_cons, hsa]
  · simp [postUrls, List.count_cons, has]

/-- Witness for C4's amended theorem at a concrete matching project. -/
theorem c4_witness :
    posts (run [projM] cat0 resp0)
        = [(seqUrl projM ++ "/Arithmetc", arithBody 0),
           (seqUrl projM ++ "/Arithmetc", arithBody 1),
           (seqUrl projM ++ "/Smoothed", smoothBody 0),
           (seqUrl projM ++ "/Smoothed", smoothBody 1),
           (seqUrl projM ++ "/Smoothed", smoothBody 2)]
      ∧ (postUrls (run [projM] cat0 resp0)).count (seqUrl projM ++ "/Arithmetc") = 2
      ∧ (postUrls (run [projM] cat0 resp0)).count (seqUrl projM ++ "/Smoothed") = 3 :=
  c4_post_counts projM [] cat0 resp0 rfl

/-- Claim C5: for every loop index i, both loop bodies carry the range
from = i*100, to = (i+1)*100, step = 1. -/
theorem c5_range_formula (i : Nat) :
    rangeOf (arithBody i) = some ((i : Int) * 100, ((i : Int) + 1) * 100, 1)
      ∧ rangeOf (smoothBody i) = some ((i : Int) * 100, ((i : Int) + 1) * 100, 1) :=
  ⟨rfl, rfl⟩

/-- Claim C6: every run issues at most one GET to the registry's /project
url and at most one GET to a url ending in "/sequence". -/
theorem c6_single_gets (ps : List Project) (cat : Json)
    (resp : String → Json → Json) :
    (run ps cat resp).countP (isGetOn registryUrl) ≤ 1
      ∧ (run ps cat resp).countP isSeqGetE ≤ 1 := by
  cases ps with
  | nil =>
    rw [run_nil]
    exact ⟨by decide, by decide⟩
  | cons p rest =>
    by_cases h : p.name = targetName
    · rw [run_match p rest cat resp h, successEvents_eq]
      have h1 : (seqUrl p == registryUrl) = false :=
        beq_eq_false_iff_ne.mpr (seqUrl_ne_registryUrl p)
      constructor
      · simp [List.countP_cons, isGetOn, h1]
      · simp [List.countP_cons, isSeqGetE, seqUrl_endsWith, registryUrl_not_seq]
    · rw [run_nomatch p rest cat resp h]
      exact ⟨by decide, by decide⟩

/-- Claim C7: the catalog response fetched from GET /sequence is never
read; two runs differing only in that response produce identical traces. -/
theorem c7_catalog_ignored (ps : List Project) (resp : String → Json → Json)
    (cat1 cat2 : Json) :
    run ps cat1 resp = run ps cat2 resp := by
  cases ps with
  | nil => rfl
  | cons p rest =>
    by_cases h : p.name = targetName
    · rw [run_match p rest cat1 resp h, run_match p rest cat2 resp h,
          successEvents_eq, successEvents_eq]
    · rw [run_nomatch p rest cat1 resp h, run_nomatch p rest cat2 resp h]

/-- Claim C8, counterexample: the nested sequences entry of the Smoothed
body is not of the same shape as a top-level body: it has no range field
(it is an object with name, parameters and sequences), so the body fails
the claim's same-shape reading while the Arithmetc body satisfies it. -/
theorem c8_counterexample :
    lookupF (smoothBody 0) "sequences" = some (Json.arr [nestedArith])
      ∧ lookupF nestedArith "range" = none
      ∧ specSameShaped 5 nestedArith = false
      ∧ specSameShaped 5 (smoothBody 0) = false
      ∧ specSameShaped 5 (arithBody 0) = true :=
  ⟨rfl, rfl, rfl, rfl, rfl⟩

/-- Claim C8, amended: every constructed body has numeric from/to/step
range, numeric parameters, and sequences entries that are objects with a
name, numeric parameters, and an empty sequences array (nesting depth at
most one); the Arithmetc bodies have parameters [1, 0.9] and no nested
entry, the Smoothed bodies have empty parameters and exactly the one
nested entry named "Arithmetic" with parameters [1, 0.9] and empty
sequences, all values literal. -/
theorem c8_body_shape (i : Nat) :
    bodyShaped (arithBody i) = true
      ∧ bodyShaped (smoothBody i) = true
      ∧ lookupF (arithBody i) "parameters" = some (Json.arr [Json.num 1 0, Json.num 9 1])
      ∧ lookupF (arithBody i) "sequences" = some (Json.arr [])
      ∧ lookupF (smoothBody i) "parameters" = some (Json.arr [])
      ∧ lookupF (smoothBody i) "sequences" = some (Json.arr [nestedArith])
      ∧ lookupF nestedArith "name" = some (Json.str "Arithmetic")
      ∧ lookupF nestedArith "parameters" = some (Json.arr [Json.num 1 0, Json.num 9 1])
      ∧ lookupF nestedArith "sequences" = some (Json.arr []) :=
  ⟨rfl, rfl, rfl, rfl, rfl, rfl, rfl, rfl, rfl⟩

set_option maxRecDepth 40000 in
/-- Claim C9: every request body the script constructs round-trips
through JSON text encoding and decoding without loss. -/
theorem c9_roundtrip :
    constructedBodies.map (fun b => decode (encode b)) = constructedBodies.map some := rfl

/-- Claim C10: the else branch of the source holds two consecutive
exit(1) statements, yet on the failure path the observable behaviour is a
single message and a single exit with status 1: the second exit is never
reached. -/
theorem c10_single_exit (p : Project) (rest : List Project) (cat : Json)
    (resp : String → Json → Json) (h : ¬ p.name = targetName) :
    elseBranch = [Stmt.print notFoundMsg, Stmt.exit 1, Stmt.exit 1]
      ∧ run (p :: rest) cat resp
          = [Event.get registryUrl, Event.print notFoundMsg, Event.exited 1]
      ∧ (run (p :: rest) cat resp).countP isExitE = 1
      ∧ exitStatus (run (p :: rest) cat resp) = 1 := by
  rw [run_nomatch p rest cat resp h]
  exact ⟨rfl, rfl, by decide, rfl⟩

/-- Witness for C10 at a concrete non-matching entry. -/
theorem c10_witness :
    elseBranch = [Stmt.print notFoundMsg, Stmt.exit 1, Stmt.exit 1]
      ∧ run [projX] cat0 resp0
          = [Event.get registryUrl, Event.print notFoundMsg, Event.exited 1]
      ∧ (run [projX] cat0 resp0).countP isExitE = 1
      ∧ exitStatus (run [projX] cat0 resp0) = 1 :=
  c10_single_exit projX [] cat0 resp0 (by decide)

end Gen
